import Mathlib

/-!
Verification of the static-website template generator
(`scripts/generate-site.js`, `scripts/deploy.js`) against its
natural-language specification.

The JavaScript code is shallowly embedded: JS values are modelled by the
inductive `JSVal` (objects as insertion-ordered association lists, matching
JS object-literal semantics), property access on `null`/`undefined` is
modelled as a `TypeError` in the `Except` monad, and JS truthiness is the
boolean `jsTruthy`.  Effectful orchestration code (git deployment, batch
generation) is modelled by explicit environments recording the outcome of
each external operation, with the log and the operation trace returned as
data.
-/

/-- Model of a JavaScript runtime value, as used by the configuration
objects of this repository.  Objects are insertion-ordered association
lists of fields. -/
inductive JSVal where
  | null : JSVal
  | undefined : JSVal
  | bool : Bool → JSVal
  | num : Int → JSVal
  | str : String → JSVal
  | arr : List JSVal → JSVal
  | obj : List (String × JSVal) → JSVal
deriving Repr

mutual

/-- Structural equality test on `JSVal` (used to model JS `Set` membership,
whose keys here are always strings). -/
def JSVal.beq : JSVal → JSVal → Bool
  | .null, .null => true
  | .undefined, .undefined => true
  | .bool a, .bool b => a == b
  | .num a, .num b => a == b
  | .str a, .str b => a == b
  | .arr a, .arr b => JSVal.beqList a b
  | .obj a, .obj b => JSVal.beqFields a b
  | _, _ => false

def JSVal.beqList : List JSVal → List JSVal → Bool
  | [], [] => true
  | a :: as, b :: bs => JSVal.beq a b && JSVal.beqList as bs
  | _, _ => false

def JSVal.beqFields : List (String × JSVal) → List (String × JSVal) → Bool
  | [], [] => true
  | (ka, va) :: as, (kb, vb) :: bs => ka == kb && JSVal.beq va vb && JSVal.beqFields as bs
  | _, _ => false

end

instance : BEq JSVal := ⟨JSVal.beq⟩

/-- JavaScript truthiness: `false`, `0`, the empty string, `null` and
`undefined` are falsy; every object — including an empty array — is
truthy. -/
def jsTruthy : JSVal → Bool
  | .null => false
  | .undefined => false
  | .bool b => b
  | .num n => n != 0
  | .str s => s != ""
  | .arr _ => true
  | .obj _ => true

/-- Field lookup on an object's field list; a missing field reads as
`undefined`, as in JS. -/
def getField (fields : List (String × JSVal)) (k : String) : JSVal :=
  match fields.find? (fun kv => kv.1 == k) with
  | some kv => kv.2
  | none => .undefined

/-- JS property access `v.k`: reading a property of `null` or `undefined`
throws a `TypeError`; reading a property of a non-object primitive yields
`undefined`. -/
def propAccess : JSVal → String → Except String JSVal
  | .null, k => .error ("TypeError: cannot read properties of null (reading " ++ k ++ ")")
  | .undefined, k => .error ("TypeError: cannot read properties of undefined (reading " ++ k ++ ")")
  | .obj fields, k => .ok (getField fields k)
  | _, _ => .ok .undefined

/-- JS array iteration `v.forEach(...)`: only defined on arrays; calling it
on `null`/`undefined` (or any non-array value) throws a `TypeError`. -/
def asArr : JSVal → Except String (List JSVal)
  | .arr xs => .ok xs
  | v => .error ("TypeError: forEach is not a function on " ++ (if jsTruthy v then "a non-array" else "a missing value"))

/-- JS object-literal key assignment: assigning to a key that is already
present updates it in place (keeping its position), otherwise the key is
appended at the end.  This is exactly the semantics of a later property in
an object literal with spreads. -/
def setKey : List (String × JSVal) → String → JSVal → List (String × JSVal)
  | [], k, v => [(k, v)]
  | kv :: o, k, v => if kv.1 == k then (k, v) :: o else kv :: setKey o k v

/-- JS object spread `{...a, ...b}`: every field of `b` is assigned, in
order, into `a`. -/
def spreadInto (a b : List (String × JSVal)) : List (String × JSVal) :=
  b.foldl (fun acc kv => setKey acc kv.1 kv.2) a

/-- The answer set collected by the interactive prompt of
`createClientConfig` (deploy.js).  `clientName` is validated non-empty;
`clientSlug` defaults to the hyphenated lowercasing of `clientName` but is
a free input the user may override. -/
structure Answers where
  clientName : String
  clientSlug : String
  title : String
  description : String
  primaryColor : String
  secondaryColor : String
  siteType : String
deriving Repr

/-- The `baseConfig` object of `generateConfigByType` (deploy.js lines 143-164):
client identity, SEO and theme fields, built purely from the answers. -/
def baseConfig (a : Answers) : List (String × JSVal) :=
  [("client", .obj [
      ("name", .str a.clientName),
      ("slug", .str a.clientSlug),
      ("domain", .str (a.clientSlug ++ ".netlify.app"))]),
   ("seo", .obj [
      ("title", .str a.title),
      ("description", .str a.description),
      ("keywords", .str ""),
      ("favicon", .str "/assets/favicon.ico")]),
   ("theme", .obj [
      ("primaryColor", .str a.primaryColor),
      ("secondaryColor", .str a.secondaryColor),
      ("accentColor", .str "#e74c3c"),
      ("backgroundColor", .str "#ffffff"),
      ("textColor", .str "#333333"),
      ("fontFamily", .str "\x27Inter\x27, sans-serif"),
      ("borderRadius", .str "8px")])]

/-- The `restaurant` entry of the per-type template registry
(deploy.js lines 168-198). -/
def restaurantTemplate (a : Answers) : List (String × JSVal) :=
  [("header", .obj [
      ("logo", .str "/assets/logo.png"),
      ("navigation", .arr [
        .obj [("label", .str "Accueil"), ("href", .str "#home")],
        .obj [("label", .str "Menu"), ("href", .str "#menu")],
        .obj [("label", .str "À propos"), ("href", .str "#about")],
        .obj [("label", .str "Contact"), ("href", .str "#contact")]])]),
   ("hero", .obj [
      ("title", .str ("Bienvenue chez " ++ a.clientName)),
      ("subtitle", .str "Une expérience culinaire unique"),
      ("backgroundImage", .str "/assets/hero-bg.jpg"),
      ("ctaButton", .obj [
        ("text", .str "Réserver une table"),
        ("href", .str "#contact"),
        ("style", .str "primary")])]),
   ("sections", .arr [
      .obj [
        ("id", .str "about"),
        ("type", .str "text-image"),
        ("title", .str "Notre Histoire"),
        ("content", .str "Découvrez notre passion pour la cuisine..."),
        ("image", .str "/assets/about.jpg"),
        ("layout", .str "image-right")]])]

/-- The `business` entry of the per-type template registry
(deploy.js lines 199-219); note it declares no `sections`. -/
def businessTemplate (a : Answers) : List (String × JSVal) :=
  [("header", .obj [
      ("logo", .str "/assets/logo.png"),
      ("navigation", .arr [
        .obj [("label", .str "Accueil"), ("href", .str "#home")],
        .obj [("label", .str "Services"), ("href", .str "#services")],
        .obj [("label", .str "À propos"), ("href", .str "#about")],
        .obj [("label", .str "Contact"), ("href", .str "#contact")]])]),
   ("hero", .obj [
      ("title", .str a.clientName),
      ("subtitle", .str "Votre partenaire de confiance"),
      ("backgroundImage", .str "/assets/hero-bg.jpg"),
      ("ctaButton", .obj [
        ("text", .str "Nos services"),
        ("href", .str "#services"),
        ("style", .str "primary")])])]

/-- The static template registry keyed by `siteType`
(`templates[answers.siteType]`): only `restaurant` and `business` are
registered; every other type reads as `undefined`, and spreading
`undefined` into an object literal contributes nothing. -/
def templatesLookup (a : Answers) : Option (List (String × JSVal)) :=
  if a.siteType == "restaurant" then some (restaurantTemplate a)
  else if a.siteType == "business" then some (businessTemplate a)
  else none

/-- The shared `contact` block of `generateConfigByType`
(deploy.js lines 226-236). -/
def contactBlock (a : Answers) : JSVal :=
  .obj [
    ("title", .str "Nous Contacter"),
    ("address", .obj [
      ("street", .str "Adresse à compléter"),
      ("city", .str "Ville"),
      ("country", .str "France")]),
    ("phone", .str "+33 X XX XX XX XX"),
    ("email", .str ("contact@" ++ a.clientSlug ++ ".com")),
    ("socialMedia", .arr [])]

/-- The shared `footer` block of `generateConfigByType`
(deploy.js lines 237-240); the copyright year is the string literal
`2024`. -/
def footerBlock (a : Answers) : JSVal :=
  .obj [
    ("copyright", .str ("© 2024 " ++ a.clientName ++ ". Tous droits réservés.")),
    ("links", .arr [])]

/-- The object literal returned by `generateConfigByType`
(deploy.js lines 223-241), for an arbitrary type-template field list
`tmpl`:
`{...baseConfig, ...tmpl, contact: <shared>, footer: <shared>}` —
the spreads and the literal `contact`/`footer` keys are assigned left to
right. -/
def generateConfigFields (a : Answers) (tmpl : List (String × JSVal)) : List (String × JSVal) :=
  setKey (setKey (spreadInto (baseConfig a) tmpl) "contact" (contactBlock a)) "footer" (footerBlock a)

/-- The function `generateConfigByType(answers)` (deploy.js lines 142-242): the base
skeleton, spread with the registry template of `answers.siteType` (nothing
when unregistered), then the shared `contact` and `footer` blocks. -/
def generateConfigByType (a : Answers) : JSVal :=
  .obj (generateConfigFields a ((templatesLookup a).getD []))

mutual

theorem JSVal.eq_of_beq : (a b : JSVal) → JSVal.beq a b = true → a = b
  | .null, b => by cases b <;> simp [JSVal.beq]
  | .undefined, b => by cases b <;> simp [JSVal.beq]
  | .bool x, b => by cases b <;> simp [JSVal.beq]
  | .num x, b => by cases b <;> simp [JSVal.beq]
  | .str x, b => by cases b <;> simp [JSVal.beq]
  | .arr xs, b => by
      cases b <;> simp [JSVal.beq]
      exact fun h => JSVal.eqList_of_beqList xs _ h
  | .obj fs, b => by
      cases b <;> simp [JSVal.beq]
      exact fun h => JSVal.eqFields_of_beqFields fs _ h

theorem JSVal.eqList_of_beqList : (xs ys : List JSVal) → JSVal.beqList xs ys = true → xs = ys
  | [], ys => by cases ys <;> simp [JSVal.beqList]
  | x :: xs, ys => by
      cases ys with
      | nil => simp [JSVal.beqList]
      | cons y ys =>
          simp only [JSVal.beqList, Bool.and_eq_true, List.cons.injEq]
          exact fun ⟨h1, h2⟩ => ⟨JSVal.eq_of_beq x y h1, JSVal.eqList_of_beqList xs ys h2⟩

theorem JSVal.eqFields_of_beqFields :
    (fs gs : List (String × JSVal)) → JSVal.beqFields fs gs = true → fs = gs
  | [], gs => by cases gs <;> simp [JSVal.beqFields]
  | (k, v) :: fs, gs => by
      cases gs with
      | nil => simp [JSVal.beqFields]
      | cons g gs =>
          obtain ⟨k2, v2⟩ := g
          simp only [JSVal.beqFields, Bool.and_eq_true, List.cons.injEq, Prod.mk.injEq,
            beq_iff_eq]
          exact fun ⟨⟨hk, hv⟩, hs⟩ =>
            ⟨⟨hk, JSVal.eq_of_beq v v2 hv⟩, JSVal.eqFields_of_beqFields fs gs hs⟩

end

mutual

theorem JSVal.beq_refl : (a : JSVal) → JSVal.beq a a = true
  | .null => rfl
  | .undefined => rfl
  | .bool x => by simp [JSVal.beq]
  | .num x => by simp [JSVal.beq]
  | .str x => by simp [JSVal.beq]
  | .arr xs => JSVal.beqList_refl xs
  | .obj fs => JSVal.beqFields_refl fs

theorem JSVal.beqList_refl : (xs : List JSVal) → JSVal.beqList xs xs = true
  | [] => rfl
  | x :: xs => by
      simp only [JSVal.beqList, Bool.and_eq_true]
      exact ⟨JSVal.beq_refl x, JSVal.beqList_refl xs⟩

theorem JSVal.beqFields_refl : (fs : List (String × JSVal)) → JSVal.beqFields fs fs = true
  | [] => rfl
  | (k, v) :: fs => by
      simp only [JSVal.beqFields, Bool.and_eq_true, beq_self_eq_true, true_and]
      exact ⟨JSVal.beq_refl v, JSVal.beqFields_refl fs⟩

end

instance : LawfulBEq JSVal where
  eq_of_beq h := JSVal.eq_of_beq _ _ h
  rfl := JSVal.beq_refl _

instance : DecidableEq JSVal := fun a b =>
  if h : JSVal.beq a b = true then .isTrue (JSVal.eq_of_beq a b h)
  else .isFalse (fun e => h (e ▸ JSVal.beq_refl a))

/-- The `if` block helper registered on the template engine
(generate-site.js lines 11-17), replacing the engine's built-in
conditional: `if (conditional) return options.fn(this); else return
options.inverse(this)`.  `fn` and `inv` are the rendered outputs of the
truthy and inverse branches. -/
def ifHelper (conditional : JSVal) (fn inv : String) : String :=
  if jsTruthy conditional then fn else inv

/-- The `eq` helper registered on the template engine
(generate-site.js lines 7-9): strict equality `a === b`. -/
def eqHelper (a b : JSVal) : Bool :=
  JSVal.beq a b

/-- JS `Set.prototype.add` as reaching `generateAssetsList`: insertion at
the end unless an equal element is already present (JS sets are
insertion-ordered and deduplicating). -/
def setAdd (acc : List JSVal) (v : JSVal) : List JSVal :=
  if acc.contains v then acc else acc ++ [v]

/-- The guarded add `if (x) assets.add(x)` used for every asset field in
`generateAssetsList`. -/
def addIf (acc : List JSVal) (v : JSVal) : List JSVal :=
  if jsTruthy v then setAdd acc v else acc

/-- Iteration of a JS `forEach` whose callback can throw, threading the
`Set` accumulator: stops at the first thrown error. -/
def forEachM (f : List JSVal → JSVal → Except String (List JSVal)) (acc : List JSVal) :
    List JSVal → Except String (List JSVal)
  | [] => .ok acc
  | x :: xs =>
    match f acc x with
    | .error e => .error e
    | .ok acc2 => forEachM f acc2 xs

/-- The body of `section.items.forEach(item => { if (item.image)
assets.add(item.image) })` (generate-site.js lines 162-164). -/
def collectItem (acc : List JSVal) (item : JSVal) : Except String (List JSVal) :=
  match propAccess item "image" with
  | .error e => .error e
  | .ok img => .ok (addIf acc img)

/-- The body of `config.sections.forEach(...)` (generate-site.js lines
159-166): add `section.image` when truthy, then iterate `section.items`
when present (the guard `if (section.items)` is truthiness). -/
def collectSection (acc : List JSVal) (sec : JSVal) : Except String (List JSVal) :=
  match propAccess sec "image" with
  | .error e => .error e
  | .ok img =>
    match propAccess sec "items" with
    | .error e => .error e
    | .ok items =>
      if jsTruthy items then
        match asArr items with
        | .error e => .error e
        | .ok xs => forEachM collectItem (addIf acc img) xs
      else .ok (addIf acc img)

/-- The method `SiteGenerator.generateAssetsList(config)` (generate-site.js
lines 149-168), up to the final pretty-printing: the insertion-ordered set
of asset references gathered from `config.header.logo`,
`config.hero.backgroundImage`, each `sections[i].image` and each
`sections[i].items[j].image`.  Property access on an absent `header`,
`hero` or `sections` throws, which the `Except` layer records. -/
def generateAssetsList (config : JSVal) : Except String (List JSVal) :=
  match propAccess config "header" with
  | .error e => .error e
  | .ok header =>
    match propAccess header "logo" with
    | .error e => .error e
    | .ok logo =>
      match propAccess config "hero" with
      | .error e => .error e
      | .ok hero =>
        match propAccess hero "backgroundImage" with
        | .error e => .error e
        | .ok bg =>
          match propAccess config "sections" with
          | .error e => .error e
          | .ok sections =>
            match asArr sections with
            | .error e => .error e
            | .ok secs => forEachM collectSection (addIf (addIf [] logo) bg) secs

/-- Unconditional append under the same truthiness guard: the reference
stream of the traversal, without the `Set` deduplication.  Relating the
two makes the set semantics of `generateAssetsList` explicit. -/
def appendIf (acc : List JSVal) (v : JSVal) : List JSVal :=
  if jsTruthy v then acc ++ [v] else acc

/-- As `collectItem`, but recording the reference without deduplication. -/
def collectItemRefs (acc : List JSVal) (item : JSVal) : Except String (List JSVal) :=
  match propAccess item "image" with
  | .error e => .error e
  | .ok img => .ok (appendIf acc img)

/-- As `collectSection`, but recording references without deduplication. -/
def collectSectionRefs (acc : List JSVal) (sec : JSVal) : Except String (List JSVal) :=
  match propAccess sec "image" with
  | .error e => .error e
  | .ok img =>
    match propAccess sec "items" with
    | .error e => .error e
    | .ok items =>
      if jsTruthy items then
        match asArr items with
        | .error e => .error e
        | .ok xs => forEachM collectItemRefs (appendIf acc img) xs
      else .ok (appendIf acc img)

/-- The full reference stream of the `generateAssetsList` traversal, in
traversal order, without deduplication. -/
def collectRefs (config : JSVal) : Except String (List JSVal) :=
  match propAccess config "header" with
  | .error e => .error e
  | .ok header =>
    match propAccess header "logo" with
    | .error e => .error e
    | .ok logo =>
      match propAccess config "hero" with
      | .error e => .error e
      | .ok hero =>
        match propAccess hero "backgroundImage" with
        | .error e => .error e
        | .ok bg =>
          match propAccess config "sections" with
          | .error e => .error e
          | .ok sections =>
            match asArr sections with
            | .error e => .error e
            | .ok secs => forEachM collectSectionRefs (appendIf (appendIf [] logo) bg) secs

/-- JS `String.prototype.toLowerCase` on the ASCII range (the case
mapping exercised by this repository): code points 65-90 (`A`-`Z`) map 32
higher (`a`-`z`); every other character is unchanged. -/
def jsToLower (c : Char) : Char :=
  if 65 ≤ c.toNat ∧ c.toNat ≤ 90 then Char.ofNat (c.toNat + 32) else c

/-- The whitespace class of the JS regex `\s`, restricted to its ASCII
members (space, tab, line feed, vertical tab, form feed, carriage
return). -/
def isWsJS (c : Char) : Bool :=
  c == ' ' || c == '\t' || c == '\n' || c == '\x0b' || c == '\x0c' || c == '\r'

/-- JS `replace(/\s+/g, "-")`: each maximal run of whitespace characters
is replaced by a single hyphen.  The flag records whether the previous
character was whitespace, i.e. whether the current run already produced
its hyphen. -/
def collapseWs : Bool → List Char → List Char
  | _, [] => []
  | prevWs, c :: cs =>
    if isWsJS c then
      if prevWs then collapseWs true cs else '-' :: collapseWs true cs
    else c :: collapseWs false cs

/-- The default value of the `clientSlug` prompt (deploy.js line 92):
`answers.clientName.toLowerCase().replace(/\s+/g, "-")`. -/
def defaultSlug (name : String) : String :=
  ⟨collapseWs false (name.data.map jsToLower)⟩

/-- One entry of the clients-directory listing read by
`SiteGenerator.generateAllSites`, paired with the outcome the environment
has in store for `generateSite` on it: `buildOk = false` means that build
throws. -/
structure BatchFile where
  name : String
  buildOk : Bool
deriving DecidableEq, Repr

/-- JS `file.endsWith(".json")`, expressed on character lists. -/
def endsWithJson (s : String) : Bool :=
  ".json".data.isSuffixOf s.data

/-- The `.json` filter of `generateAllSites` (generate-site.js line
174). -/
def jsonFilter (files : List BatchFile) : List BatchFile :=
  files.filter (fun f => endsWithJson f.name)

/-- The `for` loop of `generateAllSites` together with its surrounding
`try`/`catch` (generate-site.js lines 172-187): each configuration is
awaited in order inside one `try`; a build that throws propagates its
exception out of the loop into the `catch`, which logs it and returns
normally.  Result: the configurations actually attempted (in order,
including the failing one) and whether the error handler fired. -/
def runBatch : List BatchFile → List String × Bool
  | [] => ([], false)
  | f :: rest =>
    if f.buildOk then
      let r := runBatch rest
      (f.name :: r.1, r.2)
    else ([f.name], true)

/-- The method `SiteGenerator.generateAllSites` (generate-site.js lines 171-188) over
an environment listing the clients directory. -/
def generateAllSites (files : List BatchFile) : List String × Bool :=
  runBatch (jsonFilter files)

/-- The version-control operations `deployToNetlify` can attempt. -/
inductive GitOp where
  | init : GitOp
  | writeGitignore : GitOp
  | add : GitOp
  | commit : GitOp
deriving DecidableEq, Repr

/-- Outcome environment for one `deployToNetlify` call: whether the site
directory already contains `.git`, and whether each external operation,
when attempted, succeeds (`false` = it throws). -/
structure GitEnv where
  hasGit : Bool
  initOk : Bool
  gitignoreOk : Bool
  addOk : Bool
  commitOk : Bool
deriving DecidableEq, Repr

/-- What one `deployToNetlify` call produces: the boolean handed back to
the caller, the console log, and the trace of version-control operations
attempted. -/
structure DeployResult where
  success : Bool
  log : List String
  ops : List GitOp
deriving DecidableEq, Repr

/-- The `catch` block of `deployToNetlify` (deploy.js lines 41-44): the
error is logged and `false` is returned; nothing is rethrown. -/
def deployCatch (log : List String) (ops : List GitOp) : DeployResult :=
  ⟨false, log ++ ["❌ Erreur de déploiement:"], ops⟩

/-- Steps 2-3 of `deployToNetlify` (deploy.js lines 26-39): stage all
files, commit with a message naming the site, then print the Netlify
instructions and return `true`. -/
def addAndCommit (env : GitEnv) (siteName : String) (log : List String) (ops : List GitOp) :
    DeployResult :=
  if env.addOk then
    if env.commitOk then
      ⟨true,
        log ++ ["Deploy " ++ siteName, "✅ Site prêt pour Netlify!",
          "📋 Instructions de déploiement:"],
        ops ++ [.add, .commit]⟩
    else deployCatch log (ops ++ [.add, .commit])
  else deployCatch log (ops ++ [.add])

/-- The method `DeploymentManager.deployToNetlify` (deploy.js lines 14-45) with
`initializeGit` (lines 47-61) inlined: check for `.git`; when absent run
`git init` and write the `.gitignore`; then stage and commit; any failure
lands in the `catch`. -/
def deployToNetlify (env : GitEnv) (siteName : String) : DeployResult :=
  let log0 := ["🚀 Déploiement de " ++ siteName ++ "..."]
  if env.hasGit then
    addAndCommit env siteName log0 []
  else
    if env.initOk then
      if env.gitignoreOk then
        addAndCommit env siteName (log0 ++ ["📝 Git initialisé"]) [.init, .writeGitignore]
      else deployCatch log0 [.init, .writeGitignore]
    else deployCatch log0 [.init]

/-- One entry of the output-directory listing read by `deployAll`, with
what `fs.stat` reports for it. -/
structure DirEntry where
  name : String
  isDir : Bool
deriving DecidableEq, Repr

/-- The method `DeploymentManager.deployAll` (deploy.js lines 63-74): walk the
output-directory listing in order and call
`deployToNetlify(path.join(outputDir, site), site)` for exactly the
entries whose `stat` reports a directory; other entries are skipped.  The
result is the list of `(siteDir, siteName)` argument pairs passed to
`deployToNetlify`, in call order. -/
def deployAllCalls (outputDir : String) : List DirEntry → List (String × String)
  | [] => []
  | e :: rest =>
    if e.isDir then
      (outputDir ++ "/" ++ e.name, e.name) :: deployAllCalls outputDir rest
    else
      deployAllCalls outputDir rest




theorem getField_setKey_self (o : List (String × JSVal)) (k : String) (v : JSVal) :
    getField (setKey o k v) k = v := by
  induction o with
  | nil => simp [setKey, getField, List.find?_cons]
  | cons kv o ih =>
    by_cases h : (kv.1 == k) = true
    · simp [setKey, getField, List.find?_cons, h]
    · have h' : (kv.1 == k) = false := eq_false_of_ne_true h
      unfold setKey getField
      rw [if_neg h]
      simp only [List.find?_cons, h']
      exact ih

theorem getField_setKey_ne (o : List (String × JSVal)) (k k' : String) (v : JSVal)
    (h : k' ≠ k) :
    getField (setKey o k v) k' = getField o k' := by
  have hkk' : (k == k') = false := by simp [Ne.symm h]
  induction o with
  | nil => simp [setKey, getField, List.find?_cons, hkk']
  | cons kv o ih =>
    by_cases hk : (kv.1 == k) = true
    · have hkv1 : kv.1 = k := by simpa using hk
      have h2 : (kv.1 == k') = false := by simp [hkv1, Ne.symm h]
      unfold setKey getField
      rw [if_pos hk]
      simp only [List.find?_cons, hkk', h2]
    · unfold setKey getField
      rw [if_neg hk]
      by_cases hk2 : (kv.1 == k') = true
      · simp only [List.find?_cons, hk2]
      · have hk2' : (kv.1 == k') = false := eq_false_of_ne_true hk2
        simp only [List.find?_cons, hk2']
        exact ih

theorem getField_generateConfigFields_contact (a : Answers) (tmpl : List (String × JSVal)) :
    getField (generateConfigFields a tmpl) "contact" = contactBlock a := by
  unfold generateConfigFields
  rw [getField_setKey_ne _ _ _ _ (by decide), getField_setKey_self]

theorem getField_generateConfigFields_footer (a : Answers) (tmpl : List (String × JSVal)) :
    getField (generateConfigFields a tmpl) "footer" = footerBlock a := by
  unfold generateConfigFields
  rw [getField_setKey_self]

/-- A concrete answer set with an unregistered site type, the spec's own
scenario: client name `Acme`, site type `unknown`, the remaining prompts
at their defaults (slug derived from the name, title = name, default
colors). -/
def acmeUnknown : Answers :=
  ⟨"Acme", "acme", "Acme", "", "#3498db", "#2c3e50", "unknown"⟩

theorem propAccess_generateConfigByType_contact (a : Answers) :
    propAccess (generateConfigByType a) "contact" = .ok (contactBlock a) := by
  show Except.ok (getField (generateConfigFields a _) "contact") = _
  rw [getField_generateConfigFields_contact]

theorem propAccess_generateConfigByType_footer (a : Answers) :
    propAccess (generateConfigByType a) "footer" = .ok (footerBlock a) := by
  show Except.ok (getField (generateConfigFields a _) "footer") = _
  rw [getField_generateConfigFields_footer]

/-- Claim C9 (confirmed): for every answer set and every type-template
field list — including a hypothetical template that defines its own
`contact` or `footer` — the merged configuration's `contact` and `footer`
equal the shared placeholder blocks, because the literal `contact` and
`footer` properties are assigned after both spreads in
`generateConfigByType`; in particular this holds for the actual registry
at every `siteType`.  The spec's open override-precedence question
resolves as: shared sections win. -/
theorem C9_shared_sections_win (a : Answers) (tmpl : List (String × JSVal)) :
    getField (generateConfigFields a tmpl) "contact" = contactBlock a ∧
    getField (generateConfigFields a tmpl) "footer" = footerBlock a ∧
    propAccess (generateConfigByType a) "contact" = .ok (contactBlock a) ∧
    propAccess (generateConfigByType a) "footer" = .ok (footerBlock a) := by
  exact ⟨getField_generateConfigFields_contact a tmpl,
    getField_generateConfigFields_footer a tmpl,
    propAccess_generateConfigByType_contact a,
    propAccess_generateConfigByType_footer a⟩

/-- Claim C2 (code bug): `synthesize` on `{clientName: "Acme", siteType:
"unknown"}` does yield the base skeleton (client, seo, theme) plus the
shared `contact` and `footer` blocks, with `header` and `hero` absent —
but `build` on that configuration throws: its manifest step calls
`generateAssetsList`, which evaluates `config.header.logo` and hits a
`TypeError` because `header` is `undefined`, instead of the asset
collection contributing nothing. -/
theorem C2_unknown_type_build_throws :
    propAccess (generateConfigByType acmeUnknown) "client" =
      .ok (getField (baseConfig acmeUnknown) "client") ∧
    propAccess (generateConfigByType acmeUnknown) "seo" =
      .ok (getField (baseConfig acmeUnknown) "seo") ∧
    propAccess (generateConfigByType acmeUnknown) "theme" =
      .ok (getField (baseConfig acmeUnknown) "theme") ∧
    propAccess (generateConfigByType acmeUnknown) "contact" = .ok (contactBlock acmeUnknown) ∧
    propAccess (generateConfigByType acmeUnknown) "footer" = .ok (footerBlock acmeUnknown) ∧
    propAccess (generateConfigByType acmeUnknown) "header" = .ok .undefined ∧
    propAccess (generateConfigByType acmeUnknown) "hero" = .ok .undefined ∧
    generateAssetsList (generateConfigByType acmeUnknown) =
      .error "TypeError: cannot read properties of undefined (reading logo)" :=
  ⟨rfl, rfl, rfl, rfl, rfl, rfl, rfl, rfl⟩

/-- Claim C5 counterexample: the registered conditional helper sends an
empty sequence to the truthy branch, not the inverse branch — rendering a
conditional over an empty list produces the truthy-branch output, so the
claim's "every falsy value including an empty sequence takes the inverse
branch" is false on the code. -/
theorem C5_counterexample :
    ifHelper (.arr []) "THEN" "ELSE" = "THEN" ∧ "THEN" ≠ "ELSE" :=
  ⟨rfl, by decide⟩

/-- Claim C5 (corrected): the registered conditional helper emits the
truthy branch exactly when the value is truthy under plain JS truthiness —
under which every array, including the empty one, is truthy; only `false`,
`0`, the empty string, `null` and `undefined` take the inverse branch.
(The helper thus does not override the host engine's treatment of empty
sequences; it restores raw JS truthiness.) -/
theorem C5_amended (fn inv : String) :
    (∀ xs : List JSVal, ifHelper (.arr xs) fn inv = fn) ∧
    ifHelper (.bool false) fn inv = inv ∧
    ifHelper (.bool true) fn inv = fn ∧
    ifHelper (.num 0) fn inv = inv ∧
    ifHelper (.str "") fn inv = inv ∧
    ifHelper .null fn inv = inv ∧
    ifHelper .undefined fn inv = inv ∧
    (∀ v, ifHelper v fn inv = if jsTruthy v then fn else inv) :=
  ⟨fun _ => rfl, rfl, rfl, rfl, rfl, rfl, rfl, fun _ => rfl⟩

/-- Claim C10 (confirmed): `deployAll` attempts deployment exactly for the
directory entries of the output root: the calls passed to
`deployToNetlify`, in enumeration order, are precisely the directory
entries (with `path.join(outputDir, name)` and the name); plain-file
entries are silently skipped. -/
theorem C10_deployAll_dirs_only (outputDir : String) (entries : List DirEntry) :
    deployAllCalls outputDir entries =
      (entries.filter (fun e => e.isDir)).map (fun e => (outputDir ++ "/" ++ e.name, e.name)) := by
  induction entries with
  | nil => rfl
  | cons e rest ih =>
    by_cases h : e.isDir = true
    · simp [deployAllCalls, List.filter_cons, h, ih]
    · have h' : e.isDir = false := eq_false_of_ne_true h
      simp [deployAllCalls, List.filter_cons, h', ih]

/-- Claim C7 (confirmed): `deployToNetlify` never raises past the
orchestrator boundary — it always returns a boolean.  The boolean is
`true` exactly when every attempted operation succeeded; when it is
`false` the failure was caught and the error logged, and the log always
carries the entry naming the site. -/
theorem C7_deploy_boolean_boundary (env : GitEnv) (siteName : String) :
    ((deployToNetlify env siteName).success =
      (env.addOk && env.commitOk && (env.hasGit || (env.initOk && env.gitignoreOk)))) ∧
    ("🚀 Déploiement de " ++ siteName ++ "...") ∈ (deployToNetlify env siteName).log ∧
    ((deployToNetlify env siteName).success = false →
      "❌ Erreur de déploiement:" ∈ (deployToNetlify env siteName).log) := by
  obtain ⟨hg, io, go, ao, co⟩ := env
  cases hg <;> cases io <;> cases go <;> cases ao <;> cases co <;>
    simp [deployToNetlify, addAndCommit, deployCatch]

/-- Witness for C7: a concrete failing environment (staging fails on an
already-versioned site) on which the caught failure is visible in the
log. -/
theorem C7_witness :
    "❌ Erreur de déploiement:" ∈ (deployToNetlify ⟨true, true, true, false, true⟩ "acme").log :=
  (C7_deploy_boolean_boundary ⟨true, true, true, false, true⟩ "acme").2.2 rfl

/-- Claim C8 (confirmed): on a site directory that already contains `.git`,
`deployToNetlify` neither re-initializes version control nor rewrites the
ignore-list — `init` and the `.gitignore` write are not in the operation
trace — and when staging and committing succeed the trace is exactly one
`add` followed by one `commit` and the call reports success, so repeated
deploys each add a commit. -/
theorem C8_reentrant_deploy (env : GitEnv) (siteName : String) (h : env.hasGit = true) :
    GitOp.init ∉ (deployToNetlify env siteName).ops ∧
    GitOp.writeGitignore ∉ (deployToNetlify env siteName).ops ∧
    (env.addOk = true → env.commitOk = true →
      (deployToNetlify env siteName).ops = [GitOp.add, GitOp.commit] ∧
      (deployToNetlify env siteName).ops.count GitOp.commit = 1 ∧
      (deployToNetlify env siteName).success = true) := by
  obtain ⟨hg, io, go, ao, co⟩ := env
  subst h
  cases ao <;> cases co <;>
    simp [deployToNetlify, addAndCommit, deployCatch, List.count_cons]

/-- Witness for C8: a concrete already-versioned environment (in which
`init` and the ignore-list write would fail if attempted, showing they are
not attempted) where the deploy adds exactly one commit. -/
theorem C8_witness :
    (deployToNetlify ⟨true, false, false, true, true⟩ "acme").ops = [GitOp.add, GitOp.commit] ∧
    (deployToNetlify ⟨true, false, false, true, true⟩ "acme").ops.count GitOp.commit = 1 ∧
    (deployToNetlify ⟨true, false, false, true, true⟩ "acme").success = true :=
  (C8_reentrant_deploy ⟨true, false, false, true, true⟩ "acme" rfl).2.2 rfl rfl

/-- Claim C1 counterexample: in a clients directory whose listing is
`a.json` (whose build throws) followed by `b.json` (whose build would
succeed), `generateAllSites` attempts only `a.json`: the later
configuration `b.json` is never attempted, because the whole loop sits in
one `try` block — refuting "every later configuration is still
attempted". -/
theorem C1_counterexample :
    endsWithJson "b.json" = true ∧
    generateAllSites [⟨"a.json", false⟩, ⟨"b.json", true⟩] = (["a.json"], true) ∧
    "b.json" ∉ (generateAllSites [⟨"a.json", false⟩, ⟨"b.json", true⟩]).1 := by
  refine ⟨by decide, by decide, by decide⟩

/-- Claim C1 (corrected): one configuration's failure is caught and
logged by `generateAllSites` and does not propagate to its caller, but it
does abort the batch: the attempted configurations are exactly the
persisted `.json` configurations up to and including the first failing
one, and the batch error handler fires exactly when some `.json`
configuration fails. -/
theorem C1_batch_stops_at_first_failure (files : List BatchFile) :
    (generateAllSites files).1 =
      ((jsonFilter files).takeWhile (fun f => f.buildOk)).map (fun f => f.name) ++
        (((jsonFilter files).dropWhile (fun f => f.buildOk)).take 1).map (fun f => f.name) ∧
    (generateAllSites files).2 = (jsonFilter files).any (fun f => !f.buildOk) := by
  unfold generateAllSites
  generalize jsonFilter files = l
  induction l with
  | nil => exact ⟨rfl, rfl⟩
  | cons f rest ih =>
    by_cases h : f.buildOk = true
    · simp [runBatch, h, ih.1, ih.2]
    · have h' : f.buildOk = false := eq_false_of_ne_true h
      simp [runBatch, h', List.takeWhile_cons, List.dropWhile_cons]

theorem toNat_ofNat_lower (n : Nat) (h1 : 97 ≤ n) (h2 : n ≤ 122) :
    (Char.ofNat n).toNat = n := by
  unfold Char.ofNat
  split
  · rfl
  · next hv =>
    exfalso
    apply hv
    constructor
    omega

theorem jsToLower_not_upper (c : Char) :
    ¬(65 ≤ (jsToLower c).toNat ∧ (jsToLower c).toNat ≤ 90) := by
  unfold jsToLower
  split
  · next h =>
    rw [toNat_ofNat_lower (c.toNat + 32) (by omega) (by omega)]
    omega
  · next h => exact h

theorem mem_collapseWs : ∀ (l : List Char) (b : Bool) (c : Char),
    c ∈ collapseWs b l → c = '-' ∨ (c ∈ l ∧ isWsJS c = false) := by
  intro l
  induction l with
  | nil =>
    intro b c h
    simp [collapseWs] at h
  | cons x xs ih =>
    intro b c h
    rw [collapseWs] at h
    by_cases hw : isWsJS x = true
    · rw [if_pos hw] at h
      cases b with
      | true =>
        rcases ih true c h with h1 | h2
        · exact Or.inl h1
        · exact Or.inr ⟨List.mem_cons_of_mem x h2.1, h2.2⟩
      | false =>
        simp only [Bool.false_eq_true, if_false] at h
        rcases List.mem_cons.mp h with h1 | h1
        · exact Or.inl h1
        · rcases ih true c h1 with h2 | h2
          · exact Or.inl h2
          · exact Or.inr ⟨List.mem_cons_of_mem x h2.1, h2.2⟩
    · rw [if_neg hw] at h
      rcases List.mem_cons.mp h with h1 | h1
      · subst h1
        exact Or.inr ⟨List.mem_cons_self c xs, eq_false_of_ne_true hw⟩
      · rcases ih false c h1 with h2 | h2
        · exact Or.inl h2
        · exact Or.inr ⟨List.mem_cons_of_mem x h2.1, h2.2⟩

theorem defaultSlug_chars (name : String) :
    ∀ c ∈ (defaultSlug name).data, isWsJS c = false ∧ ¬(65 ≤ c.toNat ∧ c.toNat ≤ 90) := by
  intro c hc
  have hc' : c ∈ collapseWs false (name.data.map jsToLower) := hc
  rcases mem_collapseWs _ false c hc' with h1 | h2
  · subst h1
    exact ⟨by decide, by decide⟩
  · refine ⟨h2.2, ?_⟩
    rcases List.mem_map.mp h2.1 with ⟨c', _, hcl⟩
    subst hcl
    exact jsToLower_not_upper c'

theorem getField_generateConfigByType_client (a : Answers) :
    propAccess (generateConfigByType a) "client" =
      .ok (.obj [("name", .str a.clientName), ("slug", .str a.clientSlug),
        ("domain", .str (a.clientSlug ++ ".netlify.app"))]) := by
  unfold generateConfigByType templatesLookup
  by_cases h1 : (a.siteType == "restaurant") = true
  · rw [if_pos h1]
    rfl
  · rw [if_neg h1]
    by_cases h2 : (a.siteType == "business") = true
    · rw [if_pos h2]
      rfl
    · rw [if_neg h2]
      rfl

/-- A concrete answer set in which the user typed an explicit slug
override `My Slug` instead of keeping the prompt's default. -/
def acmeOverridden : Answers :=
  ⟨"Acme", "My Slug", "Acme", "", "#3498db", "#2c3e50", "unknown"⟩

/-- Claim C3 counterexample: the slug prompt's default is only a default —
an answer set with non-empty `clientName` and an explicit `clientSlug`
override `My Slug` yields a configuration whose `client.slug` is the
override verbatim: it contains whitespace and an uppercase letter, so
"for all valid answer sets the slug is lowercase and whitespace-free" is
false on the code. -/
theorem C3_counterexample :
    acmeOverridden.clientName ≠ "" ∧
    propAccess (generateConfigByType acmeOverridden) "client" =
      .ok (.obj [("name", .str "Acme"), ("slug", .str "My Slug"),
        ("domain", .str "My Slug.netlify.app")]) ∧
    ("My Slug".data.any (fun c => isWsJS c)) = true ∧
    'M' ∈ "My Slug".data ∧ (65 ≤ 'M'.toNat ∧ 'M'.toNat ≤ 90) := by
  exact ⟨by decide, rfl, by decide, by decide, by decide⟩

/-- Claim C3 (corrected): for every valid answer set with non-empty
`clientName`, the synthesized configuration's `client.slug` is the
answered `clientSlug` verbatim and the `contact.email` equals
`contact@<slug>.com` — with no assumption on the slug; and whenever the
`clientSlug` is the prompt's default derivation
(`clientName.toLowerCase().replace(/\s+/g, "-")`), that slug is
whitespace-free and contains no uppercase ASCII letter. -/
theorem C3_default_slug_lowercase_email (a : Answers) (hname : a.clientName ≠ "") :
    (a.clientSlug = defaultSlug a.clientName →
      ∀ c ∈ a.clientSlug.data, isWsJS c = false ∧ ¬(65 ≤ c.toNat ∧ c.toNat ≤ 90)) ∧
    propAccess (generateConfigByType a) "client" =
      .ok (.obj [("name", .str a.clientName), ("slug", .str a.clientSlug),
        ("domain", .str (a.clientSlug ++ ".netlify.app"))]) ∧
    (∃ cf : List (String × JSVal),
      propAccess (generateConfigByType a) "contact" = .ok (.obj cf) ∧
      getField cf "email" = .str ("contact@" ++ a.clientSlug ++ ".com")) := by
  refine ⟨?_, getField_generateConfigByType_client a, ?_⟩
  · intro hslug
    rw [hslug]
    exact defaultSlug_chars a.clientName
  · refine ⟨_, propAccess_generateConfigByType_contact a, ?_⟩
    rfl

/-- Witness for C3 (corrected) at the concrete client name
`My Great Client` with the default slug, which evaluates to
`my-great-client`. -/
def mgcAnswers : Answers :=
  ⟨"My Great Client", defaultSlug "My Great Client", "My Great Client", "",
    "#3498db", "#2c3e50", "portfolio"⟩

theorem C3_witness :
    propAccess (generateConfigByType mgcAnswers) "client" =
      .ok (.obj [("name", .str "My Great Client"), ("slug", .str "my-great-client"),
        ("domain", .str "my-great-client.netlify.app")]) ∧
    (isWsJS 'm' = false ∧ ¬(65 ≤ 'm'.toNat ∧ 'm'.toNat ≤ 90)) :=
  ⟨(C3_default_slug_lowercase_email mgcAnswers (by decide)).2.1,
    (C3_default_slug_lowercase_email mgcAnswers (by decide)).1 rfl 'm' (by decide)⟩

/-- Decidable substring test on character lists: some suffix of `l`
(obtained by dropping `i` characters) starts with `pat`. -/
def subList (pat l : List Char) : Bool :=
  (List.range (l.length + 1)).any (fun i => pat.isPrefixOf (l.drop i))

/-- Substring test on strings, via their character lists. -/
def strContains (s pat : String) : Bool :=
  subList pat.data s.data

theorem subList_append (pre mid post : List Char) :
    subList mid (pre ++ (mid ++ post)) = true := by
  unfold subList
  rw [List.any_eq_true]
  refine ⟨pre.length, List.mem_range.mpr ?_, ?_⟩
  · simp only [List.length_append]
    omega
  · rw [List.drop_left]
    exact List.isPrefixOf_iff_prefix.mpr (List.prefix_append mid post)

theorem strContains_middle (pre mid post : String) :
    strContains (pre ++ (mid ++ post)) mid = true := by
  unfold strContains
  rw [String.data_append, String.data_append]
  exact subList_append pre.data mid.data post.data

theorem string_eq_of_data (s t : String) (h : s.data = t.data) : s = t := by
  cases s
  cases t
  exact congrArg String.mk h

theorem strContains_copyright_year (name : String) :
    strContains ("© 2024 " ++ name ++ ". Tous droits réservés.") "2024" = true := by
  unfold strContains
  rw [String.data_append, String.data_append]
  have hlit : "© 2024 ".data = ("© ".data ++ "2024".data) ++ " ".data := by decide
  have h : ("© 2024 ".data ++ name.data) ++ ". Tous droits réservés.".data =
      "© ".data ++ ("2024".data ++ ((" ".data ++ name.data) ++
        ". Tous droits réservés.".data)) := by
    rw [hlit]
    simp [List.append_assoc]
  rw [h]
  exact subList_append _ _ _

theorem strContains_copyright_name (name : String) :
    strContains ("© 2024 " ++ name ++ ". Tous droits réservés.") name = true := by
  unfold strContains
  rw [String.data_append, String.data_append]
  have h : ("© 2024 ".data ++ name.data) ++ ". Tous droits réservés.".data =
      "© 2024 ".data ++ (name.data ++ ". Tous droits réservés.".data) := by
    simp [List.append_assoc]
  rw [h]
  exact subList_append _ _ _

/-- Claim C4 counterexample: the copyright string does not embed the year
of the moment of synthesis — it is time-independent.  For the spec's own
scenario answers, synthesized at any moment in the year 2026, the produced
copyright is `© 2024 Acme. Tous droits réservés.`: it does not contain
`2026`; the year it embeds is the hard-coded `2024`. -/
theorem C4_counterexample :
    propAccess (generateConfigByType acmeUnknown) "footer" = .ok (footerBlock acmeUnknown) ∧
    footerBlock acmeUnknown =
      .obj [("copyright", .str "© 2024 Acme. Tous droits réservés."), ("links", .arr [])] ∧
    strContains "© 2024 Acme. Tous droits réservés." "2026" = false ∧
    strContains "© 2024 Acme. Tous droits réservés." "2024" = true :=
  ⟨rfl, rfl, by decide, by decide⟩

/-- Claim C4 (corrected): for every answer set, the `footer.copyright`
produced by `generateConfigByType` embeds the fixed literal year `2024`
together with the client name, independently of the moment of
invocation (the code never reads the clock). -/
theorem C4_copyright_fixed_year (a : Answers) :
    ∃ cp : String,
      propAccess (generateConfigByType a) "footer" =
        .ok (.obj [("copyright", .str cp), ("links", .arr [])]) ∧
      strContains cp "2024" = true ∧
      strContains cp a.clientName = true :=
  ⟨"© 2024 " ++ a.clientName ++ ". Tous droits réservés.",
    propAccess_generateConfigByType_footer a,
    strContains_copyright_year a.clientName,
    strContains_copyright_name a.clientName⟩

/-- The similarity invariant between the deduplicating `Set` accumulator
and the raw reference stream: no duplicates, and the same members. -/
def SetSim (a1 a2 : List JSVal) : Prop :=
  a1.Nodup ∧ ∀ v, v ∈ a1 ↔ v ∈ a2

/-- Relation transformer on fallible traversals: both fail with the same
error, or both succeed with related accumulators. -/
def ExceptRel (R : List JSVal → List JSVal → Prop) :
    Except String (List JSVal) → Except String (List JSVal) → Prop
  | .ok a, .ok b => R a b
  | .error e1, .error e2 => e1 = e2
  | _, _ => False

theorem addIf_sim (a1 a2 : List JSVal) (x : JSVal) (h : SetSim a1 a2) :
    SetSim (addIf a1 x) (appendIf a2 x) := by
  unfold addIf appendIf
  by_cases ht : jsTruthy x = true
  · rw [if_pos ht, if_pos ht]
    unfold setAdd
    by_cases hc : a1.contains x = true
    · rw [if_pos hc]
      have hx : x ∈ a1 := List.elem_iff.mp hc
      refine ⟨h.1, fun v => ?_⟩
      rw [List.mem_append, List.mem_singleton]
      constructor
      · intro hv
        exact Or.inl ((h.2 v).mp hv)
      · intro hv
        rcases hv with hv | hv
        · exact (h.2 v).mpr hv
        · subst hv
          exact hx
    · rw [if_neg hc]
      have hx : x ∉ a1 := fun hm => hc (List.elem_iff.mpr hm)
      refine ⟨?_, fun v => ?_⟩
      · rw [List.nodup_append]
        exact ⟨h.1, List.nodup_singleton x, by simpa using hx⟩
      · simp only [List.mem_append, List.mem_singleton, h.2 v]
  · rw [if_neg ht, if_neg ht]
    exact h

theorem forEachM_sim (f g : List JSVal → JSVal → Except String (List JSVal))
    (hfg : ∀ a1 a2 x, SetSim a1 a2 → ExceptRel SetSim (f a1 x) (g a2 x)) :
    ∀ (xs : List JSVal) (a1 a2 : List JSVal), SetSim a1 a2 →
      ExceptRel SetSim (forEachM f a1 xs) (forEachM g a2 xs) := by
  intro xs
  induction xs with
  | nil =>
    intro a1 a2 h
    exact h
  | cons x xs ih =>
    intro a1 a2 h
    simp only [forEachM]
    cases h1 : f a1 x with
    | error e =>
      cases h2 : g a2 x with
      | error e2 =>
        have hx := hfg a1 a2 x h
        rw [h1, h2] at hx
        exact hx
      | ok b =>
        have hx := hfg a1 a2 x h
        rw [h1, h2] at hx
        exact False.elim hx
    | ok a1' =>
      cases h2 : g a2 x with
      | error e2 =>
        have hx := hfg a1 a2 x h
        rw [h1, h2] at hx
        exact False.elim hx
      | ok a2' =>
        have hx := hfg a1 a2 x h
        rw [h1, h2] at hx
        exact ih a1' a2' hx

theorem collectItem_sim (a1 a2 : List JSVal) (item : JSVal) (h : SetSim a1 a2) :
    ExceptRel SetSim (collectItem a1 item) (collectItemRefs a2 item) := by
  unfold collectItem collectItemRefs
  cases h1 : propAccess item "image" with
  | error e => exact rfl
  | ok img => exact addIf_sim a1 a2 img h

theorem collectSection_sim (a1 a2 : List JSVal) (sec : JSVal) (h : SetSim a1 a2) :
    ExceptRel SetSim (collectSection a1 sec) (collectSectionRefs a2 sec) := by
  unfold collectSection collectSectionRefs
  cases h1 : propAccess sec "image" with
  | error e => exact rfl
  | ok img =>
    dsimp only
    cases h2 : propAccess sec "items" with
    | error e => exact rfl
    | ok items =>
      dsimp only
      by_cases ht : jsTruthy items = true
      · rw [if_pos ht, if_pos ht]
        cases h3 : asArr items with
        | error e => exact rfl
        | ok xs =>
          exact forEachM_sim collectItem collectItemRefs collectItem_sim xs _ _
            (addIf_sim a1 a2 img h)
      · rw [if_neg ht, if_neg ht]
        exact addIf_sim a1 a2 img h

theorem assets_refs_sim (config : JSVal) :
    ExceptRel SetSim (generateAssetsList config) (collectRefs config) := by
  unfold generateAssetsList collectRefs
  cases h1 : propAccess config "header" with
  | error e => exact rfl
  | ok header =>
    dsimp only
    cases h2 : propAccess header "logo" with
    | error e => exact rfl
    | ok logo =>
      dsimp only
      cases h3 : propAccess config "hero" with
      | error e => exact rfl
      | ok hero =>
        dsimp only
        cases h4 : propAccess hero "backgroundImage" with
        | error e => exact rfl
        | ok bg =>
          dsimp only
          cases h5 : propAccess config "sections" with
          | error e => exact rfl
          | ok sections =>
            dsimp only
            cases h6 : asArr sections with
            | error e => exact rfl
            | ok secs =>
              dsimp only
              exact forEachM_sim collectSection collectSectionRefs collectSection_sim secs _ _
                (addIf_sim _ _ bg (addIf_sim [] [] logo
                  ⟨List.nodup_nil, fun v => Iff.rfl⟩))

/-- Claim C6 (confirmed): the asset collection has true set semantics —
whenever the traversal succeeds, its result has no duplicate entries and
contains exactly the values of the raw (unsuppressed) reference stream of
the same configuration, so a path referenced any number of times across
`header.logo`, `hero.backgroundImage`, `sections[i].image` and
`sections[i].items[j].image` appears exactly once. -/
theorem C6_assets_set_semantics (config : JSVal) (l r : List JSVal)
    (hl : generateAssetsList config = .ok l) (hr : collectRefs config = .ok r) :
    l.Nodup ∧ (∀ v, v ∈ l ↔ v ∈ r) := by
  have hsim := assets_refs_sim config
  rw [hl, hr] at hsim
  exact hsim

/-- The spec's asset-listing scenario: `hero.backgroundImage =
"/assets/hero.jpg"` and two sections each referencing the same path. -/
def heroTwiceConfig : JSVal :=
  .obj [
    ("header", .obj []),
    ("hero", .obj [("backgroundImage", .str "/assets/hero.jpg")]),
    ("sections", .arr [
      .obj [("image", .str "/assets/hero.jpg")],
      .obj [("image", .str "/assets/hero.jpg")]])]

/-- Witness for C6 at the spec's scenario: three references to
`/assets/hero.jpg` collapse to a result of size 1. -/
theorem C6_witness :
    generateAssetsList heroTwiceConfig = .ok [JSVal.str "/assets/hero.jpg"] ∧
    collectRefs heroTwiceConfig =
      .ok [JSVal.str "/assets/hero.jpg", JSVal.str "/assets/hero.jpg",
        JSVal.str "/assets/hero.jpg"] ∧
    ([JSVal.str "/assets/hero.jpg"] : List JSVal).Nodup ∧
    List.length [JSVal.str "/assets/hero.jpg"] = 1 :=
  ⟨rfl, rfl, (C6_assets_set_semantics heroTwiceConfig _ _ rfl rfl).1, rfl⟩
